import Mathlib

/-!
Verification of the client-side SSH engine (package `ssh`): a shallow
embedding of the wire codec, public-key and certificate layer, algorithm
negotiation, Diffie-Hellman range checks, the flow-control window, the
channel table, and inbound channel-open handling, with theorems checking
the natural-language specification against the code.

Conventions of the embedding:
- a Go byte is a `Nat` (values kept below 256 by construction);
- Go `uint32` / `uint64` values are `Nat`s, with `% 2^32` inserted exactly
  where the machine arithmetic can wrap;
- Go `string` is modelled as a Lean `String` restricted to one byte per
  character (all protocol identifiers are ASCII); `strBytes` / `bytesStr`
  convert to and from byte lists;
- Go parse functions returning `(out, rest, ok)` become either
  `Option (out × rest)` (for the primitives) or a literal triple
  `Option out × List Nat × Bool` where the flag can disagree with the
  presence of the value (needed to express `parseOpenSSHCertV01`, whose
  early returns leave the named results at their current values);
- recursive parsers and byte expansions take an explicit fuel argument so
  that they compute by kernel reduction; the public wrappers pass fuel
  larger than the input length, which bounds the recursion depth.
-/

set_option maxRecDepth 4000

/-! ### Wire-codec primitives

The primitive codec functions (`parseString`, `marshalString`,
`parseUint32`, `marshalUint32`, `parseUint64`, `marshalUint64`,
`stringLength`, `parseInt`, `marshalInt`) live in `messages.go`, which is
not part of the sources; they are modelled from the spec, section 4.1:
all multi-byte integers are big-endian; a byte-string is a 4-byte length
then that many bytes; an mpint is a byte-string holding a minimal
two's-complement big-endian body. -/

/-- Bytes of a Go string (one byte per character; ASCII only). -/
def strBytes (s : String) : List Nat := s.data.map Char.toNat

/-- Go string built from bytes (inverse of `strBytes` on ASCII data). -/
def bytesStr (b : List Nat) : String := String.mk (b.map Char.ofNat)

/-- Modelled from the spec: `stringLength` from `messages.go`, the encoded
size of a byte-string of payload length `n`. -/
def stringLength (n : Nat) : Nat := 4 + n

/-- Modelled from the spec: `marshalUint32` from `messages.go`, 4 bytes
big-endian (upper bits of a too-large argument are dropped, as by the Go
`uint32` conversion). -/
def marshalUint32 (n : Nat) : List Nat :=
  [n / 2 ^ 24 % 256, n / 2 ^ 16 % 256, n / 2 ^ 8 % 256, n % 256]

/-- Modelled from the spec: `marshalUint64` from `messages.go`. -/
def marshalUint64 (n : Nat) : List Nat :=
  [n / 2 ^ 56 % 256, n / 2 ^ 48 % 256, n / 2 ^ 40 % 256, n / 2 ^ 32 % 256,
   n / 2 ^ 24 % 256, n / 2 ^ 16 % 256, n / 2 ^ 8 % 256, n % 256]

/-- Modelled from the spec: `parseUint32` from `messages.go`: fails on
fewer than four bytes of input. -/
def parseUint32 : List Nat → Option (Nat × List Nat)
  | a :: b :: c :: d :: rest => some (((a * 256 + b) * 256 + c) * 256 + d, rest)
  | _ => none

/-- Modelled from the spec: `parseUint64` from `messages.go`. -/
def parseUint64 : List Nat → Option (Nat × List Nat)
  | a :: b :: c :: d :: e :: f :: g :: h :: rest =>
      some ((((((((a * 256 + b) * 256 + c) * 256 + d) * 256 + e) * 256 + f)
        * 256 + g) * 256 + h), rest)
  | _ => none

/-- Modelled from the spec: `marshalString` from `messages.go`: 4-byte
length then the payload. -/
def marshalString (s : List Nat) : List Nat := marshalUint32 s.length ++ s

/-- Modelled from the spec: `parseString` from `messages.go`: reads a
4-byte length `L`, fails unless `L` further bytes remain, and returns the
payload and the remaining input. -/
def parseString (i : List Nat) : Option (List Nat × List Nat) :=
  match parseUint32 i with
  | none => none
  | some (len, r) => if len ≤ r.length then some (r.take len, r.drop len) else none

/-- Big-endian value of a byte list. -/
def beNat (b : List Nat) : Nat := b.foldl (fun acc d => acc * 256 + d) 0

/-- Minimal big-endian bytes of a natural number (empty for 0); the fuel
bounds the number of produced bytes and is passed far larger than any
value used here needs. -/
def natBytesBEAux : Nat → Nat → List Nat → List Nat
  | 0, _, acc => acc
  | fuel + 1, n, acc => if n = 0 then acc else natBytesBEAux fuel (n / 256) (n % 256 :: acc)

/-- Minimal big-endian bytes of a natural number. -/
def natBytesBE (n : Nat) : List Nat := natBytesBEAux 512 n []

/-- Two's-complement value of a big-endian byte list (negative when the
top bit of the first byte is set). -/
def twosComplement (b : List Nat) : Int :=
  match b with
  | [] => 0
  | d :: _ => if 128 ≤ d then (beNat b : Int) - (256 : Int) ^ b.length else (beNat b : Int)

/-- Modelled from the spec: body bytes of an mpint (spec section 4.1):
minimal two's-complement big-endian, with a leading zero byte for a
positive number whose top bit is set. The fuel of the negative search
bounds the body length. -/
def negIntBytesAux : Nat → Nat → Int → List Nat
  | 0, _, _ => []
  | fuel + 1, k, n =>
      if -((2 : Int) ^ (8 * k - 1)) ≤ n then natBytesBE ((2 ^ (8 * k) + n).toNat)
      else negIntBytesAux fuel (k + 1) n

/-- Modelled from the spec: the mpint body of an integer. -/
def intBodyBytes (n : Int) : List Nat :=
  if n = 0 then []
  else if 0 < n then
    let bs := natBytesBE n.toNat
    if 128 ≤ bs.headD 0 then 0 :: bs else bs
  else negIntBytesAux 512 1 n

/-- Modelled from the spec: `marshalInt` from `messages.go`: an mpint is
the length-prefixed minimal two's-complement body. -/
def marshalInt (n : Int) : List Nat := marshalString (intBodyBytes n)

/-- Modelled from the spec: `parseInt` from `messages.go`: a byte-string
read as a two's-complement big-endian integer. -/
def parseInt (i : List Nat) : Option (Int × List Nat) :=
  (parseString i).map (fun p => (twosComplement p.1, p.2))

/-! ### Flow-control window (`window.add` / `window.reserve`)

Translated from `window.add` and `window.reserve`: the counter `win` is a
`uint32`; `add` wraps modulo `2^32` and detects the wrap with the
`w.win+win < win` test; `reserve` blocks while the window is zero, which
the sequential model renders as `none`. -/

/-- The `window.add` method: returns the success flag and the new value of
the `uint32` counter. -/
def window.add (w : Nat) (win : Nat) : Bool × Nat :=
  if win = 0 then (true, w)
  else if (w + win) % 2 ^ 32 < win then (false, w)
  else (true, (w + win) % 2 ^ 32)

/-- The `window.reserve` method: `none` models blocking on an empty
window; otherwise returns the granted amount and the new counter. -/
def window.reserve (w : Nat) (win : Nat) : Option (Nat × Nat) :=
  if w = 0 then none
  else
    let granted := if w < win then w else win
    some (granted, w - granted)

/-! ### Algorithm negotiation -/

/-- The `findCommonAlgorithm` function: first client entry for which the
inner loop finds an equal server entry. -/
def findCommonAlgorithm : List String → List String → Option String
  | [], _ => none
  | c :: cs, serverAlgos =>
      if serverAlgos.contains c then some c else findCommonAlgorithm cs serverAlgos

/-- The `findCommonCipher` function: as `findCommonAlgorithm`, but the
inner loop also requires a `cipherModes` table entry for the cipher (the
table lives in the cipher module and is abstracted as a predicate). -/
def findCommonCipher (cipherModes : String → Bool) :
    List String → List String → Option String
  | [], _ => none
  | c :: cs, serverCiphers =>
      if serverCiphers.contains c && cipherModes c then some c
      else findCommonCipher cipherModes cs serverCiphers

/-- Modelled from the spec: the `kexInitMsg` message from `messages.go`
(spec section 3, KexInit), restricted to the fields the negotiation and
handshake read. -/
structure kexInitMsg where
  Cookie : List Nat
  KexAlgos : List String
  ServerHostKeyAlgos : List String
  CiphersClientServer : List String
  CiphersServerClient : List String
  MACsClientServer : List String
  MACsServerClient : List String
  CompressionClientServer : List String
  CompressionServerClient : List String
  LanguagesClientServer : List String
  LanguagesServerClient : List String
  FirstKexFollows : Bool

/-- The algorithms chosen by `findAgreedAlgorithms`: the source stores
the cipher, MAC and compression choices into the transport's writer and
reader halves and returns the KEX and host-key choices. -/
structure agreedAlgorithms where
  kexAlgo : String
  hostKeyAlgo : String
  writerCipher : String
  readerCipher : String
  writerMAC : String
  readerMAC : String
  writerCompression : String
  readerCompression : String

/-- The `findAgreedAlgorithms` function: each category in the source's
order, stopping at the first category with no common entry. -/
def findAgreedAlgorithms (cipherModes : String → Bool)
    (clientKexInit serverKexInit : kexInitMsg) : Option agreedAlgorithms := do
  let kexAlgo ← findCommonAlgorithm clientKexInit.KexAlgos serverKexInit.KexAlgos
  let hostKeyAlgo ← findCommonAlgorithm clientKexInit.ServerHostKeyAlgos
    serverKexInit.ServerHostKeyAlgos
  let writerCipher ← findCommonCipher cipherModes clientKexInit.CiphersClientServer
    serverKexInit.CiphersClientServer
  let readerCipher ← findCommonCipher cipherModes clientKexInit.CiphersServerClient
    serverKexInit.CiphersServerClient
  let writerMAC ← findCommonAlgorithm clientKexInit.MACsClientServer
    serverKexInit.MACsClientServer
  let readerMAC ← findCommonAlgorithm clientKexInit.MACsServerClient
    serverKexInit.MACsServerClient
  let writerCompression ← findCommonAlgorithm clientKexInit.CompressionClientServer
    serverKexInit.CompressionClientServer
  let readerCompression ← findCommonAlgorithm clientKexInit.CompressionServerClient
    serverKexInit.CompressionServerClient
  pure ⟨kexAlgo, hostKeyAlgo, writerCipher, readerCipher, writerMAC, readerMAC,
    writerCompression, readerCompression⟩

/-- The negotiation step of `ClientConn.handshake`: a failed
`findAgreedAlgorithms` makes the handshake fail with the
no-common-algorithms error. -/
def handshakeNegotiate (cipherModes : String → Bool)
    (clientKexInit serverKexInit : kexInitMsg) : Except String agreedAlgorithms :=
  match findAgreedAlgorithms cipherModes clientKexInit serverKexInit with
  | some a => .ok a
  | none => .error "ssh: no common algorithms"

/-- Spec-side restatement (section 4.4 step 3): for each category the
chosen algorithm is the first entry of the client's list that appears
anywhere in the server's list, ciphers additionally requiring a local
cipher-mode table entry; any empty category fails. Stated with
`List.find?` to be compared with the source translation. -/
def specFirstMatch (client server : List String) : Option String :=
  client.find? (fun c => server.contains c)

/-- Spec-side restatement of the cipher category of section 4.4 step 3. -/
def specFirstCipherMatch (cipherModes : String → Bool)
    (client server : List String) : Option String :=
  client.find? (fun c => server.contains c && cipherModes c)

/-- Spec-side restatement of the whole negotiation (section 4.4 step 3). -/
def specNegotiation (cipherModes : String → Bool)
    (clientKexInit serverKexInit : kexInitMsg) : Option agreedAlgorithms := do
  let kexAlgo ← specFirstMatch clientKexInit.KexAlgos serverKexInit.KexAlgos
  let hostKeyAlgo ← specFirstMatch clientKexInit.ServerHostKeyAlgos
    serverKexInit.ServerHostKeyAlgos
  let writerCipher ← specFirstCipherMatch cipherModes clientKexInit.CiphersClientServer
    serverKexInit.CiphersClientServer
  let readerCipher ← specFirstCipherMatch cipherModes clientKexInit.CiphersServerClient
    serverKexInit.CiphersServerClient
  let writerMAC ← specFirstMatch clientKexInit.MACsClientServer
    serverKexInit.MACsClientServer
  let readerMAC ← specFirstMatch clientKexInit.MACsServerClient
    serverKexInit.MACsServerClient
  let writerCompression ← specFirstMatch clientKexInit.CompressionClientServer
    serverKexInit.CompressionClientServer
  let readerCompression ← specFirstMatch clientKexInit.CompressionServerClient
    serverKexInit.CompressionServerClient
  pure ⟨kexAlgo, hostKeyAlgo, writerCipher, readerCipher, writerMAC, readerMAC,
    writerCompression, readerCompression⟩

/-! ### Diffie-Hellman -/

/-- The `dhGroup` structure: a multiplicative group for Diffie-Hellman. -/
structure dhGroup where
  g : Int
  p : Int

/-- The `dhGroup.diffieHellman` method. The private exponent is a `Nat`
(the caller draws it from `[0, p-1]`); `big.Int.Exp` with a positive
modulus is exponentiation modulo `p`. -/
def dhGroup.diffieHellman (group : dhGroup) (theirPublic : Int) (myPrivate : Nat) :
    Except String Int :=
  if theirPublic ≤ 0 ∨ group.p ≤ theirPublic then
    .error "ssh: DH parameter out of bounds"
  else .ok (theirPublic ^ myPrivate % group.p)

/-- The prime of `dhGroup1` (Oakley Group 2), from `initDHGroup1`. -/
def dhGroup1 : dhGroup :=
  { g := 2
    p := 0xFFFFFFFFFFFFFFFFC90FDAA22168C234C4C6628B80DC1CD129024E088A67CC74020BBEA63B139B22514A08798E3404DDEF9519B3CD3A431B302B0A6DF25F14374FE1356D6D51C245E485B576625E7EC6F44C42E9A637ED6B0BFF5CB6F406B7EDEE386BFB5A899FA5AE9F24117C4B1FE649286651ECE65381FFFFFFFFFFFFFFFF }

/-- The prime of `dhGroup14` (Oakley Group 14), from `initDHGroup14`. -/
def dhGroup14 : dhGroup :=
  { g := 2
    p := 0xFFFFFFFFFFFFFFFFC90FDAA22168C234C4C6628B80DC1CD129024E088A67CC74020BBEA63B139B22514A08798E3404DDEF9519B3CD3A431B302B0A6DF25F14374FE1356D6D51C245E485B576625E7EC6F44C42E9A637ED6B0BFF5CB6F406B7EDEE386BFB5A899FA5AE9F24117C4B1FE649286651ECE45B3DC2007CB8A163BF0598DA48361C55D39A69163FA8FD24CF5F83655D23DCA3AD961C62F356208552BB9ED529077096966D670C354E4ABC9804F1746C08CA18217C32905E462E36CE3BE39E772C180E86039B2783A2EC07A28FB5C55DF06F4C52C9DE2BCBF6955817183995497CEA956AE515D2261898FA051015728E5A8AACAA68FFFFFFFFFFFFFFFF }

/-! ### Channel table -/

/-- A client channel; the table and the claims only need its identity, so
the model keeps the local id. -/
structure clientChan where
  localId : Nat

/-- The `chanList.getChan` method: an id below the table length returns
the slot content (possibly nil, modelled as `none`) with `ok = true`; a
larger id returns `(nil, false)`. -/
def chanList.getChan (chans : List (Option clientChan)) (id : Nat) :
    Option clientChan × Bool :=
  if h : id < chans.length then (chans[id], true) else (none, false)

/-- The `chanList.remove` method: stores nil into the slot. -/
def chanList.remove (chans : List (Option clientChan)) (id : Nat) :
    List (Option clientChan) :=
  chans.set id none

/-- The local id `chanList.newChan` assigns: the first nil slot, else the
current length (append). -/
def chanList.newChanId : List (Option clientChan) → Nat
  | [] => 0
  | none :: _ => 0
  | some _ :: rest => chanList.newChanId rest + 1

/-- Outcome of the `msgChannelData` arm of `mainLoop` for a given channel
table and remote id: the loop returns (tearing the connection down) when
`getChan` reports `ok = false`, and otherwise dereferences the returned
channel to append to its stdout buffer — a nil channel is a nil
dereference. -/
inductive dataStepOutcome where
  | terminated
  | delivered (ch : clientChan)
  | nilDereference

/-- The channel-data delivery step of `mainLoop` (type 94 arm), keeping
only the `getChan` use and the subsequent dereference. -/
def mainLoopChannelData (chans : List (Option clientChan)) (remoteId : Nat) :
    dataStepOutcome :=
  match chanList.getChan chans remoteId with
  | (_, false) => .terminated
  | (none, true) => .nilDereference
  | (some ch, true) => .delivered ch

/-! ### Inbound channel open -/

/-- Modelled from the spec: the `channelOpenMsg` message from
`messages.go` (fields read by `handleChanOpen`). -/
structure channelOpenMsg where
  ChanType : String
  PeersId : Nat
  PeersWindow : Nat
  MaxPacketSize : Nat
  TypeSpecificData : List Nat

/-- Modelled from the spec: the channel-open-failure reason codes used by
the client (spec section 7). -/
inductive openFailureReason where
  | ConnectionFailed
  | UnknownChannelType
deriving DecidableEq

/-- A `net.TCPAddr` as far as the forward list is concerned; the
stdlib IP value is abstracted by the address string it was parsed from. -/
structure tcpAddr where
  IP : String
  Port : Nat
deriving DecidableEq

/-- The `parseTCPAddr` function: a byte-string address and a `uint32`
port; fails when the address does not parse as an IP. The stdlib
`net.ParseIP` is abstracted as the predicate `parseIP`. -/
def parseTCPAddr (parseIP : String → Bool) (b : List Nat) :
    Option (tcpAddr × List Nat) :=
  match parseString b with
  | none => none
  | some (addr, b1) =>
    match parseUint32 b1 with
    | none => none
    | some (port, b2) =>
      if parseIP (bytesStr addr) then some (⟨bytesStr addr, port⟩, b2) else none

/-- Wire messages `handleChanOpen` can emit. -/
inductive chanOpenWireMsg where
  | openFailure (peersId : Nat) (reason : openFailureReason)
  | openConfirm (peersId myId myWindow maxPacketSize : Nat)
deriving DecidableEq

/-- Observable effects of one `handleChanOpen` call: packets written, the
local id of a channel allocated through `newChan` (if any), and the
`(channel, originator)` pair pushed onto the forward-list queue (if
any). -/
structure chanOpenEffects where
  sent : List chanOpenWireMsg
  allocatedChan : Option Nat
  enqueuedForward : Option (Nat × tcpAddr)
deriving DecidableEq

/-- The `handleChanOpen` method. The max-packet-size guard sends a
channel-open-failure but does not return, so the switch below it still
runs; the guard's upper test is `>` against `1<<31`. `minPacketLength`
is a constant of the missing part of the package and is passed as a
parameter; the forward list is the set of listen addresses. -/
def handleChanOpen (parseIP : String → Bool) (minPacketLength : Nat)
    (forwards : List tcpAddr) (chans : List (Option clientChan))
    (msg : channelOpenMsg) : chanOpenEffects :=
  let pre : List chanOpenWireMsg :=
    if msg.MaxPacketSize < minPacketLength ∨ 2 ^ 31 < msg.MaxPacketSize then
      [.openFailure msg.PeersId .ConnectionFailed]
    else []
  if msg.ChanType = "forwarded-tcpip" then
    match parseTCPAddr parseIP msg.TypeSpecificData with
    | none => ⟨pre ++ [.openFailure msg.PeersId .ConnectionFailed], none, none⟩
    | some (laddr, rest) =>
      if forwards.contains laddr then
        match parseTCPAddr parseIP rest with
        | none => ⟨pre ++ [.openFailure msg.PeersId .ConnectionFailed], none, none⟩
        | some (raddr, _) =>
          let localId := chanList.newChanId chans
          ⟨pre ++ [.openConfirm msg.PeersId localId (2 ^ 14) (2 ^ 15)],
            some localId, some (localId, raddr)⟩
      else ⟨pre ++ [.openFailure msg.PeersId .ConnectionFailed], none, none⟩
  else ⟨pre ++ [.openFailure msg.PeersId .UnknownChannelType], none, none⟩

/-! ### Public keys and OpenSSH v01 certificates

The key variants themselves (`ssh-rsa`, `ssh-dss`, ECDSA) live in
`keys.go`, which is not part of the sources; their blobs and parsers are
modelled from the spec (sections 3 and 4.2). The certificate envelope,
its parser, its marshaller and the list/tuple/signature codecs are
translated from `certs.go`. -/

/-- The signature structure from `certs.go`. -/
structure sshSignature where
  Format : String
  Blob : List Nat
deriving DecidableEq

/-- A critical-option or extension tuple from `certs.go`. -/
structure sshTuple where
  Name : String
  Data : String
deriving DecidableEq

mutual
/-- Modelled from the spec (section 3): the public-key variant — RSA,
DSA, ECDSA on a named curve, or an OpenSSH v01 certificate wrapping an
inner key. -/
inductive PublicKey where
  | rsa (E N : Int)
  | dsa (P Q G Y : Int)
  | ecdsa (curveId : String) (X Y : Nat)
  | cert (c : OpenSSHCertV01)

/-- The `OpenSSHCertV01` structure from `certs.go`, in field order.
`time.Time` fields are modelled by their Unix seconds; the `Type` field
is called `CertType` because `Type` is reserved in Lean. -/
inductive OpenSSHCertV01 where
  | mk (Nonce : List Nat) (Key : PublicKey) (Serial : Nat) (CertType : Nat)
      (KeyId : String) (ValidPrincipals : List String)
      (ValidAfter ValidBefore : Nat)
      (CriticalOptions Extensions : List sshTuple)
      (Reserved : List Nat) (SignatureKey : PublicKey)
      (Signature : sshSignature)
end

/-- The algorithm-name constants from `keys.go` (values fixed by the spec
section 4.2 table) and `certs.go`. -/
def KeyAlgoRSA : String := "ssh-rsa"

/-- The `ssh-dss` algorithm name. -/
def KeyAlgoDSA : String := "ssh-dss"

/-- The `ecdsa-sha2-nistp256` algorithm name. -/
def KeyAlgoECDSA256 : String := "ecdsa-sha2-nistp256"

/-- The `ecdsa-sha2-nistp384` algorithm name. -/
def KeyAlgoECDSA384 : String := "ecdsa-sha2-nistp384"

/-- The `ecdsa-sha2-nistp521` algorithm name. -/
def KeyAlgoECDSA521 : String := "ecdsa-sha2-nistp521"

/-- The `ssh-rsa-cert-v01@openssh.com` algorithm name from `certs.go`. -/
def CertAlgoRSAv01 : String := "ssh-rsa-cert-v01@openssh.com"

/-- The `ssh-dss-cert-v01@openssh.com` algorithm name from `certs.go`. -/
def CertAlgoDSAv01 : String := "ssh-dss-cert-v01@openssh.com"

/-- The `ecdsa-sha2-nistp256-cert-v01@openssh.com` algorithm name. -/
def CertAlgoECDSA256v01 : String := "ecdsa-sha2-nistp256-cert-v01@openssh.com"

/-- The `ecdsa-sha2-nistp384-cert-v01@openssh.com` algorithm name. -/
def CertAlgoECDSA384v01 : String := "ecdsa-sha2-nistp384-cert-v01@openssh.com"

/-- The `ecdsa-sha2-nistp521-cert-v01@openssh.com` algorithm name. -/
def CertAlgoECDSA521v01 : String := "ecdsa-sha2-nistp521-cert-v01@openssh.com"

/-- The `pubAlgoToPrivAlgo` function: maps a certificate algorithm name
to the underlying key-family name, and is the identity elsewhere. -/
def pubAlgoToPrivAlgo (pubAlgo : String) : String :=
  if pubAlgo = CertAlgoRSAv01 then KeyAlgoRSA
  else if pubAlgo = CertAlgoDSAv01 then KeyAlgoDSA
  else if pubAlgo = CertAlgoECDSA256v01 then KeyAlgoECDSA256
  else if pubAlgo = CertAlgoECDSA384v01 then KeyAlgoECDSA384
  else if pubAlgo = CertAlgoECDSA521v01 then KeyAlgoECDSA521
  else pubAlgo

/-- The `PrivateKeyAlgo` method: the key-family name; for a certificate
(`OpenSSHCertV01.PrivateKeyAlgo` in `certs.go`) it is the inner key's
private algorithm. -/
def PublicKey.PrivateKeyAlgo : PublicKey → String
  | .rsa _ _ => KeyAlgoRSA
  | .dsa _ _ _ _ => KeyAlgoDSA
  | .ecdsa curveId _ _ => "ecdsa-sha2-" ++ curveId
  | .cert (.mk _ key _ _ _ _ _ _ _ _ _ _ _) => PublicKey.PrivateKeyAlgo key

/-- The `lengthPrefixedNameListLength` function from `certs.go`. -/
def lengthPrefixedNameListLength (namelist : List String) : Nat :=
  namelist.foldl (fun length name => length + 4 + (strBytes name).length) 4

/-- The `marshalLengthPrefixedNameList` function from `certs.go`: an
outer length prefix covering the concatenation of the length-prefixed
names. The source writes into a pre-sized buffer; the model emits the
written bytes. -/
def marshalLengthPrefixedNameList (namelist : List String) : List Nat :=
  marshalUint32 (lengthPrefixedNameListLength namelist - 4) ++
    (namelist.map (fun name => marshalString (strBytes name))).flatten

/-- Inner loop of `parseLengthPrefixedNameList`: length-prefixed names
until the outer payload is consumed. Fuel bounds the iteration count
(each iteration consumes at least four bytes). -/
def parseNameListLoop : Nat → List Nat → Option (List String)
  | _, [] => some []
  | 0, _ :: _ => none
  | fuel + 1, list =>
    match parseString list with
    | none => none
    | some (next, list1) => (parseNameListLoop fuel list1).map (bytesStr next :: ·)

/-- The `parseLengthPrefixedNameList` function from `certs.go`. -/
def parseLengthPrefixedNameList (i : List Nat) : Option (List String × List Nat) :=
  match parseString i with
  | none => none
  | some (list, rest) => (parseNameListLoop list.length list).map (·, rest)

/-- The `tupleListLength` function from `certs.go`. -/
def tupleListLength (tupleList : List sshTuple) : Nat :=
  tupleList.foldl
    (fun length t => length + 4 + (strBytes t.Name).length + 4 + (strBytes t.Data).length) 4

/-- The `marshalTupleList` function from `certs.go`. -/
def marshalTupleList (tuplelist : List sshTuple) : List Nat :=
  marshalUint32 (tupleListLength tuplelist - 4) ++
    (tuplelist.map (fun t => marshalString (strBytes t.Name) ++ marshalString (strBytes t.Data))).flatten

/-- Inner loop of `parseTupleList`: (name, data) pairs until the outer
payload is consumed. -/
def parseTupleListLoop : Nat → List Nat → Option (List sshTuple)
  | _, [] => some []
  | 0, _ :: _ => none
  | fuel + 1, list =>
    match parseString list with
    | none => none
    | some (name, list1) =>
      match parseString list1 with
      | none => none
      | some (dat, list2) =>
        (parseTupleListLoop fuel list2).map (⟨bytesStr name, bytesStr dat⟩ :: ·)

/-- The `parseTupleList` function from `certs.go`. -/
def parseTupleList (i : List Nat) : Option (List sshTuple × List Nat) :=
  match parseString i with
  | none => none
  | some (list, rest) => (parseTupleListLoop list.length list).map (·, rest)

/-- The `signatureLength` function from `certs.go`. -/
def signatureLength (sig : sshSignature) : Nat :=
  4 + stringLength (strBytes sig.Format).length + stringLength sig.Blob.length

/-- The `marshalSignature` function from `certs.go`. -/
def marshalSignature (sig : sshSignature) : List Nat :=
  marshalUint32 (signatureLength sig - 4) ++
    marshalString (strBytes sig.Format) ++ marshalString sig.Blob

/-- The `parseSignatureBody` function from `certs.go`. -/
def parseSignatureBody (i : List Nat) : Option (sshSignature × List Nat) :=
  match parseString i with
  | none => none
  | some (format, i1) =>
    match parseString i1 with
    | none => none
    | some (blob, i2) => some (⟨bytesStr format, blob⟩, i2)

/-- The `parseSignature` function from `certs.go`: reads the outer
byte-string and parses its payload. The post-signature remainder of the
outer input is discarded (the source marks this as a bug and keeps the
behavior). -/
def parseSignature (i : List Nat) : Option (sshSignature × List Nat) :=
  match parseString i with
  | none => none
  | some (sigBytes, _) => parseSignatureBody sigBytes

/-- Byte length of the SEC1 coordinates of a named curve. -/
def ecCurveByteLen (curveId : String) : Nat :=
  if curveId = "nistp256" then 32
  else if curveId = "nistp384" then 48
  else if curveId = "nistp521" then 66
  else 0

/-- Big-endian bytes of a coordinate, left-padded to the curve width. -/
def padBE (k : Nat) (n : Nat) : List Nat :=
  let bs := natBytesBE n
  List.replicate (k - bs.length) 0 ++ bs

mutual
/-- The key-specific `Marshal` blob: RSA and DSA keys are sequences of
mpints, an ECDSA key is the curve identifier and the uncompressed SEC1
point (both modelled from the spec, section 4.2, as `keys.go` is not in
the sources), and a certificate is the full envelope of `certs.go`. -/
def PublicKey.Marshal : PublicKey → List Nat
  | .rsa e n => marshalInt e ++ marshalInt n
  | .dsa p q g y => marshalInt p ++ marshalInt q ++ marshalInt g ++ marshalInt y
  | .ecdsa curveId x y =>
      marshalString (strBytes curveId) ++
        marshalString (4 :: (padBE (ecCurveByteLen curveId) x ++ padBE (ecCurveByteLen curveId) y))
  | .cert c => OpenSSHCertV01.Marshal c

/-- The `OpenSSHCertV01.Marshal` method from `certs.go`: every field in
order. The two `MarshalPublicKey` calls of the source (for `Key` and for
the payload of the `SignatureKey` byte-string) are spelled out inline so
that the mutual recursion is structural; `MarshalPublicKey` below is the
same expression. -/
def OpenSSHCertV01.Marshal : OpenSSHCertV01 → List Nat
  | .mk nonce key serial certType keyId principals va vb crit ext reserved sigKey sig =>
      marshalString nonce ++
        (marshalString (strBytes (PublicKey.PrivateKeyAlgo key)) ++ PublicKey.Marshal key) ++
        marshalUint64 serial ++
        marshalUint32 certType ++
        marshalString (strBytes keyId) ++
        marshalLengthPrefixedNameList principals ++
        marshalUint64 va ++
        marshalUint64 vb ++
        marshalTupleList crit ++
        marshalTupleList ext ++
        marshalString reserved ++
        marshalString
          (marshalString (strBytes (PublicKey.PrivateKeyAlgo sigKey)) ++ PublicKey.Marshal sigKey) ++
        marshalSignature sig
end

/-- The `MarshalPublicKey` function: the private-key algorithm name as a
byte-string, followed by the key blob. -/
def MarshalPublicKey (key : PublicKey) : List Nat :=
  marshalString (strBytes (PublicKey.PrivateKeyAlgo key)) ++ PublicKey.Marshal key

mutual
/-- Modelled from the spec: `parsePubKey` from `keys.go` — reads the
length-prefixed algorithm name and dispatches: plain key families parse
their blobs, certificate names parse a certificate with the key-family
name as algo context (spec section 4.2: the inner key's private-algo must
equal the algo context), and an unknown name fails. The triple mirrors
the Go `(out, rest, ok)` named results. Fuel bounds the nesting of
certificates. -/
def parsePubKeyF : Nat → List Nat → Option PublicKey × List Nat × Bool
  | 0, _ => (none, [], false)
  | fuel + 1, i =>
    match parseString i with
    | none => (none, [], false)
    | some (algoBytes, i1) =>
      let algo := bytesStr algoBytes
      if algo = KeyAlgoRSA then parseRSA i1
      else if algo = KeyAlgoDSA then parseDSA i1
      else if algo = KeyAlgoECDSA256 ∨ algo = KeyAlgoECDSA384 ∨ algo = KeyAlgoECDSA521 then
        parseECDSA i1
      else if algo = CertAlgoRSAv01 ∨ algo = CertAlgoDSAv01 ∨ algo = CertAlgoECDSA256v01
          ∨ algo = CertAlgoECDSA384v01 ∨ algo = CertAlgoECDSA521v01 then
        match parseOpenSSHCertV01F fuel i1 (pubAlgoToPrivAlgo algo) with
        | (c, rest, ok) => (c.map .cert, rest, ok)
      else (none, [], false)

/-- Modelled from the spec: `parseRSA` from `keys.go` — mpint `e`, mpint
`n` (RFC 4253 section 6.6; spec section 3, RSA (e, n)). -/
def parseRSA : List Nat → Option PublicKey × List Nat × Bool
  | i =>
    match parseInt i with
    | none => (none, [], false)
    | some (e, i1) =>
      match parseInt i1 with
      | none => (none, [], false)
      | some (n, i2) => (some (.rsa e n), i2, true)

/-- Modelled from the spec: `parseDSA` from `keys.go` — mpints `p`, `q`,
`g`, `y`. -/
def parseDSA : List Nat → Option PublicKey × List Nat × Bool
  | i =>
    match parseInt i with
    | none => (none, [], false)
    | some (p, i1) =>
      match parseInt i1 with
      | none => (none, [], false)
      | some (q, i2) =>
        match parseInt i2 with
        | none => (none, [], false)
        | some (g, i3) =>
          match parseInt i3 with
          | none => (none, [], false)
          | some (y, i4) => (some (.dsa p q g y), i4, true)

/-- Modelled from the spec: `parseECDSA` from `keys.go` — the curve
identifier byte-string and the uncompressed SEC1 point byte-string (spec
section 4.2). -/
def parseECDSA : List Nat → Option PublicKey × List Nat × Bool
  | i =>
    match parseString i with
    | none => (none, [], false)
    | some (curveIdBytes, i1) =>
      match parseString i1 with
      | none => (none, [], false)
      | some (point, i2) =>
        match point with
        | 4 :: coords =>
          let bl := ecCurveByteLen (bytesStr curveIdBytes)
          if coords.length = 2 * bl then
            (some (.ecdsa (bytesStr curveIdBytes) (beNat (coords.take bl))
              (beNat (coords.drop bl))), i2, true)
          else (none, [], false)
        | _ => (none, [], false)

/-- The `parseOpenSSHCertV01` function from `certs.go`, every field in
source order. Early returns reproduce the Go named-result values: a
failed sub-parse or a private-algo mismatch returns `(none, [], false)`,
but a `CertType` outside {UserCert, HostCert} returns with the `ok` flag
still `true` (the source clears `ok` only on the algo mismatch). A key
parse that reports `ok` with a nil key (possible only through that same
quirk on a nested certificate) would dereference nil in Go and is
modelled as a failed parse. -/
def parseOpenSSHCertV01F : Nat → List Nat → String → Option OpenSSHCertV01 × List Nat × Bool
  | 0, _, _ => (none, [], false)
  | fuel + 1, i, algo =>
    match parseString i with
    | none => (none, [], false)
    | some (nonce, i1) =>
      match parsePubKeyF fuel i1 with
      | (_, _, false) => (none, [], false)
      | (none, _, true) => (none, [], false)
      | (some key, i2, true) =>
        if PublicKey.PrivateKeyAlgo key ≠ algo then (none, [], false)
        else
          match parseUint64 i2 with
          | none => (none, [], false)
          | some (serial, i3) =>
            match parseUint32 i3 with
            | none => (none, [], false)
            | some (certType, i4) =>
              if certType ≠ 1 ∧ certType ≠ 2 then (none, [], true)
              else
                match parseString i4 with
                | none => (none, [], false)
                | some (keyId, i5) =>
                  match parseLengthPrefixedNameList i5 with
                  | none => (none, [], false)
                  | some (principals, i6) =>
                    match parseUint64 i6 with
                    | none => (none, [], false)
                    | some (va, i7) =>
                      match parseUint64 i7 with
                      | none => (none, [], false)
                      | some (vb, i8) =>
                        match parseTupleList i8 with
                        | none => (none, [], false)
                        | some (crit, i9) =>
                          match parseTupleList i9 with
                          | none => (none, [], false)
                          | some (ext, i10) =>
                            match parseString i10 with
                            | none => (none, [], false)
                            | some (reserved, i11) =>
                              match parseString i11 with
                              | none => (none, [], false)
                              | some (sigKeyBytes, i12) =>
                                match parsePubKeyF fuel sigKeyBytes with
                                | (_, _, false) => (none, [], false)
                                | (none, _, true) => (none, [], false)
                                | (some sigKey, _, true) =>
                                  match parseSignature i12 with
                                  | none => (none, [], false)
                                  | some (sig, i13) =>
                                    (some (.mk nonce key serial certType (bytesStr keyId)
                                      principals va vb crit ext reserved sigKey sig), i13, true)
end

/-- The exported `ParsePublicKey` (`keys.go`): parses an algo-prefixed
wire key. The fuel exceeds any possible recursion depth for the input. -/
def ParsePublicKey (i : List Nat) : Option PublicKey × List Nat × Bool :=
  parsePubKeyF (i.length + 2) i

/-- Fuel-instantiated wrapper for `parseOpenSSHCertV01` from `certs.go`. -/
def parseOpenSSHCertV01 (i : List Nat) (algo : String) :
    Option OpenSSHCertV01 × List Nat × Bool :=
  parseOpenSSHCertV01F (i.length + 2) i algo


/-! ### Helper lemmas -/

/-- The nested-loop search of `findCommonAlgorithm` is the first client
entry appearing anywhere in the server list. -/
theorem findCommonAlgorithm_eq_specFirstMatch (cs ss : List String) :
    findCommonAlgorithm cs ss = specFirstMatch cs ss := by
  induction cs with
  | nil => rfl
  | cons c cs ih =>
    unfold findCommonAlgorithm
    rw [ih]
    unfold specFirstMatch
    rw [List.find?_cons]
    cases h : ss.contains c <;> simp [h]

/-- The nested-loop search of `findCommonCipher` is the first client
entry appearing in the server list that has a cipher-mode entry. -/
theorem findCommonCipher_eq_specFirstCipherMatch (modes : String → Bool)
    (cs ss : List String) :
    findCommonCipher modes cs ss = specFirstCipherMatch modes cs ss := by
  induction cs with
  | nil => rfl
  | cons c cs ih =>
    unfold findCommonCipher
    rw [ih]
    unfold specFirstCipherMatch
    rw [List.find?_cons]
    cases h : ss.contains c && modes c <;> simp [h]

/-! ### Claim theorems -/

/-- C3: for every pair of client and server KexInit preference lists and
every category, the algorithm chosen by `findAgreedAlgorithms` is the
first entry of the client's list that appears anywhere in the server's
list — for the two cipher categories an entry is additionally skipped
unless a local cipher-mode table entry exists for it — and if any single
category yields no match, negotiation reports failure and the handshake
fails with the no-common-algorithm error. -/
theorem c3_negotiation_first_client_match (cipherModes : String → Bool)
    (ck sk : kexInitMsg) :
    findAgreedAlgorithms cipherModes ck sk = specNegotiation cipherModes ck sk ∧
    (findAgreedAlgorithms cipherModes ck sk = none →
      handshakeNegotiate cipherModes ck sk = .error "ssh: no common algorithms") := by
  constructor
  · simp only [findAgreedAlgorithms, specNegotiation,
      findCommonAlgorithm_eq_specFirstMatch, findCommonCipher_eq_specFirstCipherMatch]
  · intro h
    simp [handshakeNegotiate, h]

/-- Witness for C3 at a concrete input: disjoint KEX preference lists
make the handshake fail with the no-common-algorithm error. -/
theorem c3_negotiation_first_client_match_witness :
    handshakeNegotiate (fun _ => true)
      ⟨[], ["k1"], ["ssh-rsa"], ["c"], ["c"], ["m"], ["m"], ["none"], ["none"], [], [], false⟩
      ⟨[], ["k2"], ["ssh-rsa"], ["c"], ["c"], ["m"], ["m"], ["none"], ["none"], [], [], false⟩ =
      .error "ssh: no common algorithms" :=
  (c3_negotiation_first_client_match (fun _ => true)
      ⟨[], ["k1"], ["ssh-rsa"], ["c"], ["c"], ["m"], ["m"], ["none"], ["none"], [], [], false⟩
      ⟨[], ["k2"], ["ssh-rsa"], ["c"], ["c"], ["m"], ["m"], ["none"], ["none"], [], [], false⟩).2
    rfl

/-- C5: for the `uint32` send-window counter, `add 0` always succeeds and
leaves the counter unchanged; for positive `delta`, if the `uint32` sum
is less than `delta` the add fails and leaves the counter unchanged
(in particular from `2^32 - 5`, adding 10 fails, and adding `0xFFFFFFFF`
to any non-zero counter fails), and otherwise the add succeeds and the
new counter is the exact sum `w + delta`. -/
theorem c5_window_add (w delta : Nat) (hw : w < 2 ^ 32) (hd : delta < 2 ^ 32) :
    window.add w 0 = (true, w) ∧
    (0 < delta → (w + delta) % 2 ^ 32 < delta → window.add w delta = (false, w)) ∧
    (0 < delta → ¬ (w + delta) % 2 ^ 32 < delta → window.add w delta = (true, w + delta)) ∧
    (0 < w → window.add w 0xFFFFFFFF = (false, w)) := by
  refine ⟨rfl, ?_, ?_, ?_⟩
  · intro hpos hwrap
    unfold window.add
    rw [if_neg (by omega), if_pos hwrap]
  · intro hpos hnowrap
    unfold window.add
    rw [if_neg (by omega), if_neg hnowrap]
    have hsum : (w + delta) % 2 ^ 32 = w + delta := by omega
    rw [hsum]
  · intro hwpos
    unfold window.add
    rw [if_neg (by decide), if_pos (by omega)]

/-- Witness for C5 at the spec's concrete inputs. -/
theorem c5_window_add_witness :
    window.add (2 ^ 32 - 5) 10 = (false, 2 ^ 32 - 5) ∧
    window.add 7 0xFFFFFFFF = (false, 7) :=
  ⟨(c5_window_add (2 ^ 32 - 5) 10 (by decide) (by decide)).2.1 (by decide) (by decide),
   (c5_window_add 7 0xFFFFFFFF (by decide) (by decide)).2.2.2 (by decide)⟩

/-- C6: from a window of 0, `add n` (for positive `n` below `2^32`)
succeeds and sets the counter to `n`, and a following `reserve m` grants
exactly `min n m` and leaves `n - min n m`; in general `reserve` on a
non-empty window grants `min request w`, decrements the window by the
granted amount, and never grants more than requested nor more than
available. -/
theorem c6_window_add_reserve (n m : Nat) (hn : 0 < n) (hn32 : n < 2 ^ 32) :
    window.add 0 n = (true, n) ∧
    window.reserve n m = some (min n m, n - min n m) ∧
    (∀ w req : Nat, 0 < w →
      window.reserve w req = some (min req w, w - min req w) ∧
        min req w ≤ req ∧ min req w ≤ w) := by
  refine ⟨?_, ?_, ?_⟩
  · unfold window.add
    rw [if_neg (by omega)]
    have hsum : (0 + n) % 2 ^ 32 = n := by omega
    rw [hsum, if_neg (by omega)]
  · unfold window.reserve
    rw [if_neg (by omega)]
    have hmin : (if n < m then n else m) = min n m := by
      rw [Nat.min_def]
      split <;> split <;> omega
    simp only [hmin]
  · intro w req hw
    unfold window.reserve
    rw [if_neg (by omega)]
    have hmin : (if w < req then w else req) = min req w := by
      rw [Nat.min_def]
      split <;> split <;> omega
    simp only [hmin]
    exact ⟨trivial, Nat.min_le_left req w, Nat.min_le_right req w⟩

/-- Witness for C6 at `n = 5`, `m = 3`. -/
theorem c6_window_add_reserve_witness :
    window.add 0 5 = (true, 5) ∧ window.reserve 5 3 = some (min 5 3, 5 - min 5 3) :=
  ⟨(c6_window_add_reserve 5 3 (by decide) (by decide)).1,
   (c6_window_add_reserve 5 3 (by decide) (by decide)).2.1⟩

/-- Counterexample for C4: the claim requires `diffieHellman(Y, x)` to
fail for every `Y` outside the open interval `(1, p)`, but `Y = 1` — not
strictly between 1 and `p` — is accepted by the code, which only checks
`Sign() <= 0` (the interval it enforces is `(0, p)`). -/
theorem c4_dh_range_counterexample :
    dhGroup1.diffieHellman 1 5 = .ok 1 ∧
    ¬ (1 < (1 : Int) ∧ (1 : Int) < dhGroup1.p) := by
  constructor
  · rfl
  · intro h
    exact absurd h.1 (by decide)

/-- C4 amended: the received server public value is validated to lie
strictly between 0 and the group prime `p`: `diffieHellman(Y, x)` fails
with the parameter-out-of-bounds error exactly when `Y ≤ 0` or `Y ≥ p`
(in particular for `Y = 0` and `Y = p`), and for every `Y` with
`0 < Y < p` — including `Y = 1` — it succeeds and returns `Y^x mod p`. -/
theorem c4_dh_range_amended (group : dhGroup) (Y : Int) (x : Nat) :
    (group.diffieHellman Y x = .error "ssh: DH parameter out of bounds" ↔
      Y ≤ 0 ∨ group.p ≤ Y) ∧
    (0 < Y → Y < group.p → group.diffieHellman Y x = .ok (Y ^ x % group.p)) ∧
    group.diffieHellman 0 x = .error "ssh: DH parameter out of bounds" ∧
    group.diffieHellman group.p x = .error "ssh: DH parameter out of bounds" := by
  refine ⟨?_, ?_, ?_, ?_⟩
  · unfold dhGroup.diffieHellman
    by_cases h : Y ≤ 0 ∨ group.p ≤ Y
    · simp [h]
    · simp [h]
  · intro h1 h2
    unfold dhGroup.diffieHellman
    rw [if_neg (by omega)]
  · unfold dhGroup.diffieHellman
    rw [if_pos (Or.inl (le_refl (0 : Int)))]
  · unfold dhGroup.diffieHellman
    rw [if_pos (Or.inr (le_refl group.p))]

/-- Witness for C4 amended: `Y = 2` on group 1 succeeds with `2^3 mod p`,
and `Y = 0` fails. -/
theorem c4_dh_range_amended_witness :
    dhGroup1.diffieHellman 2 3 = .ok (2 ^ 3 % dhGroup1.p) ∧
    dhGroup1.diffieHellman 0 3 = .error "ssh: DH parameter out of bounds" :=
  ⟨(c4_dh_range_amended dhGroup1 2 3).2.1 (by decide) (by decide),
   (c4_dh_range_amended dhGroup1 0 3).2.2.1⟩

/-- Counterexample for C8: with client list `[a, b, c]` and server list
`[c, b, a]`, `findCommonAlgorithm` returns `a` — the first entry of the
client's preference list, which is present in the server's list — not
`b` as the claim states. -/
theorem c8_negotiation_counterexample :
    findCommonAlgorithm ["a", "b", "c"] ["c", "b", "a"] = some "a" ∧
    findCommonAlgorithm ["a", "b", "c"] ["c", "b", "a"] ≠ some "b" := by
  constructor
  · rfl
  · intro h
    exact absurd h (by decide)

/-- C8 amended: given the client preference list `[a, b, c]` and the
server list `[c, b, a]`, the negotiated algorithm is `a` (the first
entry of the client's list that appears in the server's list); given two
disjoint lists, `findCommonAlgorithm` reports no common algorithm. -/
theorem c8_negotiation_amended (a b c : String) (cs ss : List String)
    (hdisj : ∀ x ∈ cs, x ∉ ss) :
    findCommonAlgorithm [a, b, c] [c, b, a] = some a ∧
    findCommonAlgorithm cs ss = none := by
  constructor
  · unfold findCommonAlgorithm
    rw [if_pos (by simp)]
  · induction cs with
    | nil => rfl
    | cons x xs ih =>
      have hx : x ∉ ss := hdisj x (List.mem_cons_self x xs)
      unfold findCommonAlgorithm
      rw [if_neg (by simpa using hx)]
      exact ih (fun y hy => hdisj y (List.mem_cons_of_mem x hy))

/-- Witness for C8 amended at concrete lists. -/
theorem c8_negotiation_amended_witness :
    findCommonAlgorithm ["a", "b", "c"] ["c", "b", "a"] = some "a" ∧
    findCommonAlgorithm ["p"] ["q"] = none :=
  ⟨(c8_negotiation_amended "a" "b" "c" ["p"] ["q"] (by decide)).1,
   (c8_negotiation_amended "a" "b" "c" ["p"] ["q"] (by decide)).2⟩

/-- Counterexample for C9: the encoding of `["a", "bc"]` is not the
claimed byte sequence with outer length prefix 13 (`0x0d`) — the outer
prefix the code writes is 11, the total length of the two
length-prefixed names. -/
theorem c9_namelist_counterexample :
    marshalLengthPrefixedNameList ["a", "bc"] ≠
      [0, 0, 0, 13, 0, 0, 0, 1, 97, 0, 0, 0, 2, 98, 99] := by
  intro h
  exact absurd h (by decide)

/-- C9 amended: `marshalLengthPrefixedNameList` encodes the empty name
list as exactly four zero bytes, and encodes `["a", "bc"]` as
`00 00 00 0b 00 00 00 01 'a' 00 00 00 02 'b' 'c'` — outer length prefix
11 followed by the two length-prefixed names — which
`parseLengthPrefixedNameList` parses back with empty remainder. -/
theorem c9_namelist_amended :
    marshalLengthPrefixedNameList [] = [0, 0, 0, 0] ∧
    marshalLengthPrefixedNameList ["a", "bc"] =
      [0, 0, 0, 11, 0, 0, 0, 1, 97, 0, 0, 0, 2, 98, 99] ∧
    parseLengthPrefixedNameList (marshalLengthPrefixedNameList ["a", "bc"]) =
      some (["a", "bc"], []) := by
  refine ⟨rfl, by decide, by decide⟩

/-- C10: for every id strictly below the channel-table length,
`getChan` after `remove id` still returns `ok = true`, and the channel
returned alongside `ok = true` is nil; the channel-data arm of
`mainLoop`, which dereferences the channel under `ok = true`, therefore
hits a nil dereference for freed ids. -/
theorem c10_getchan_freed_slot (chans : List (Option clientChan)) (id : Nat)
    (h : id < chans.length) :
    chanList.getChan (chanList.remove chans id) id = (none, true) ∧
    mainLoopChannelData (chanList.remove chans id) id = .nilDereference := by
  have hget : chanList.getChan (chanList.remove chans id) id = (none, true) := by
    unfold chanList.getChan chanList.remove
    rw [dif_pos (by simpa using h)]
    rw [List.getElem_set_self]
  refine ⟨hget, ?_⟩
  unfold mainLoopChannelData
  rw [hget]

/-- Witness for C10 on a one-entry table. -/
theorem c10_getchan_freed_slot_witness :
    chanList.getChan (chanList.remove [some ⟨0⟩] 0) 0 = (none, true) ∧
    mainLoopChannelData (chanList.remove [some ⟨0⟩] 0) 0 = .nilDereference :=
  c10_getchan_freed_slot [some ⟨0⟩] 0 (by decide)

/-- The failing input for C1: a `forwarded-tcpip` open whose
`max_packet_size` is 0 (below any positive minimum packet length) but
whose addresses are valid and whose listen address is on the forward
list. -/
def c1Msg : channelOpenMsg :=
  { ChanType := "forwarded-tcpip"
    PeersId := 42
    PeersWindow := 1000
    MaxPacketSize := 0
    TypeSpecificData := marshalString (strBytes "1.2.3.4") ++ marshalUint32 80 ++
      marshalString (strBytes "5.6.7.8") ++ marshalUint32 90 }

/-- C1: the claim says an inbound open with an out-of-range
`max_packet_size` gets a channel-open-failure and is not processed
further. The code sends the failure but, lacking a return, continues: at
`max_packet_size = 0` it also allocates a local channel, emits a
channel-open-confirm and enqueues the forward; and at
`max_packet_size = 2^31` — which the claim requires to be rejected — the
guard (`> 1<<31`) does not even send the failure. Evaluated here with
the minimum packet length instantiated to 9 and `net.ParseIP` accepting
the two dotted-quad addresses. -/
theorem c1_chan_open_bad_max_packet_still_processed :
    handleChanOpen (fun _ => true) 9 [⟨"1.2.3.4", 80⟩] [] c1Msg =
      { sent := [.openFailure 42 .ConnectionFailed, .openConfirm 42 0 (2 ^ 14) (2 ^ 15)],
        allocatedChan := some 0,
        enqueuedForward := some (0, ⟨"5.6.7.8", 90⟩) } ∧
    handleChanOpen (fun _ => true) 9 [⟨"1.2.3.4", 80⟩] []
        { c1Msg with MaxPacketSize := 2 ^ 31 } =
      { sent := [.openConfirm 42 0 (2 ^ 14) (2 ^ 15)],
        allocatedChan := some 0,
        enqueuedForward := some (0, ⟨"5.6.7.8", 90⟩) } := by
  refine ⟨by decide, by decide⟩

/-- A concrete well-formed certificate over a small RSA inner key, the
failing input for C2. -/
def c2Cert : OpenSSHCertV01 :=
  .mk [1, 2, 3] (.rsa 3 5) 7 1 "keyid" ["user"] 10 20 [] [] [] (.rsa 3 5)
    ⟨"ssh-rsa", [9, 9]⟩

/-- Discriminator for the variant of a parse result. -/
def isCertResult : Option PublicKey → Bool
  | some (.cert _) => true
  | _ => false

/-- C2: the claim says `ParsePublicKey (MarshalPublicKey K)` returns `K`
with empty remainder, certificate in, certificate out. But
`MarshalPublicKey` writes `PrivateKeyAlgo()`, which for a certificate is
the inner key's name (`ssh-rsa` here), so the parser dispatches to the
plain RSA parser: the parse reports ok but yields a non-certificate
(the RSA parser misreads the certificate body) with a non-empty
remainder. -/
theorem c2_cert_marshal_parse_no_roundtrip :
    PublicKey.PrivateKeyAlgo (.cert c2Cert) = "ssh-rsa" ∧
    isCertResult (ParsePublicKey (MarshalPublicKey (.cert c2Cert))).1 = false ∧
    (ParsePublicKey (MarshalPublicKey (.cert c2Cert))).2.2 = true ∧
    (ParsePublicKey (MarshalPublicKey (.cert c2Cert))).2.1 ≠ [] := by
  refine ⟨rfl, rfl, rfl, by decide⟩

/-- The failing input for C7: a certificate blob whose nonce, inner key
(`ssh-rsa`, matching the algo context) and serial parse correctly, and
whose type field is 3. -/
def c7Blob : List Nat :=
  marshalString [] ++ MarshalPublicKey (.rsa 3 5) ++ marshalUint64 7 ++ marshalUint32 3

/-- C7: the claim says `parseOpenSSHCertV01` returns not-ok whenever the
type field is neither 1 nor 2. On the type-3 input the parser does abort
and returns no certificate, but its `ok` result remains `true` (the
early return never clears the named flag), so the parse is reported as
successful; by contrast, a private-algo mismatch (second conjunct, algo
context `ssh-dss` against an `ssh-rsa` inner key) does return
`ok = false` as the claim states. -/
theorem c7_cert_bad_type_parses_ok :
    parseOpenSSHCertV01 c7Blob KeyAlgoRSA = (none, [], true) ∧
    parseOpenSSHCertV01 c7Blob KeyAlgoDSA = (none, [], false) := by
  refine ⟨rfl, rfl⟩
